import Mathlib

/-!
Verification of the core logic of `src/snowflake-cortex-agent.ts`
(Snowflake Cortex AI agent GitHub action).

The TypeScript source is shallowly embedded:
* JSON-like runtime values become the mutual inductive types
  `JsonValue` / `JsonList` / `JsonFields` (mutual rather than nested so
  that the recursive functions over them are structural and hence
  evaluable by the kernel).  JavaScript numbers are modelled as exact
  unreduced fractions (`JsNumber`); `NaN`/`Infinity` never arise from
  the embedded parsing functions on the inputs the claims are about.
* Thrown exceptions become `Except String` results.
* Filesystem state becomes explicit lists of `DirEntry` records; a
  per-entry fs error (`statSync`/`unlinkSync` throwing) is modelled as a
  boolean flag on the entry, and the source's per-entry `try/catch`
  as "keep the entry and continue".
* `String.prototype.trim` is embedded as the character-list based
  `jsTrim` (ASCII whitespace; the further Unicode space characters
  JavaScript also strips are outside the scope of the claims).
-/

/-- An exact JavaScript number: an unreduced fraction with positive
denominator (every embedded producer keeps `den` a power of ten).
Kept unnormalised so that all operations on it are plain `Int`/`Nat`
arithmetic, which the kernel evaluates. -/
structure JsNumber where
  num : Int
  den : Nat
deriving DecidableEq

/-- `Math.floor` on an exact number: integer division rounding toward
negative infinity. -/
def JsNumber.floor (q : JsNumber) : Int := Int.fdiv q.num (q.den : Int)

mutual
/-- A parsed JSON-like JavaScript value.  Object fields are kept in
insertion order; keys are unique whenever the value was produced by the
embedded `JSON.parse` (`insertField` overwrites in place, as JavaScript
object assignment does). -/
inductive JsonValue where
  | null : JsonValue
  | bool (b : Bool) : JsonValue
  | num (q : JsNumber) : JsonValue
  | str (s : String) : JsonValue
  | arr (items : JsonList) : JsonValue
  | obj (fields : JsonFields) : JsonValue
/-- The element list of an embedded JSON array. -/
inductive JsonList where
  | nil : JsonList
  | cons (head : JsonValue) (tail : JsonList) : JsonList
/-- The field list of an embedded JSON object. -/
inductive JsonFields where
  | nil : JsonFields
  | cons (key : String) (val : JsonValue) (rest : JsonFields) : JsonFields
end

def JsonList.ofList : List JsonValue → JsonList
  | [] => .nil
  | x :: xs => .cons x (JsonList.ofList xs)

def JsonFields.ofList : List (String × JsonValue) → JsonFields
  | [] => .nil
  | (k, v) :: rest => .cons k v (JsonFields.ofList rest)

/-- `String.prototype.trim()` (ASCII whitespace). -/
def jsTrim (s : String) : String :=
  String.mk (((s.data.dropWhile Char.isWhitespace).reverse.dropWhile Char.isWhitespace).reverse)

/-- JavaScript falsiness restricted to the values of `JsonValue`:
`null`, `false`, `0` and `""` are falsy; every array and object
(including `[]` and the empty object) is truthy. -/
def jsFalsy : JsonValue → Bool
  | .null => true
  | .bool b => !b
  | .num q => q.num == 0
  | .str s => s == ""
  | .arr _ => false
  | .obj _ => false

/-- Property lookup on an embedded object (`record.key`);
`none` models JavaScript `undefined`. -/
def jlookup : JsonFields → String → Option JsonValue
  | .nil, _ => none
  | .cons k v rest, key => if k = key then some v else jlookup rest key

/-- `Array.prototype.join(sep)` for a list of strings. -/
def joinSep (sep : String) : List String → String
  | [] => ""
  | [p] => p
  | p :: rest => p ++ sep ++ joinSep sep rest

/-- The element mapping step of `extractAnswerText`'s content branch:
`entry && typeof entry === 'object' && typeof entry.text === 'string'
  ? entry.text : undefined`.
(An embedded array is a JavaScript `object` but has no `text` property;
`null` is falsy.) -/
def contentEntryText : JsonValue → Option String
  | .obj fs =>
    match jlookup fs "text" with
    | some (.str t) => some t
    | _ => none
  | _ => none

/-- The collected text parts of a `content` array, fusing the source's
`content.map(entry => ...)` with its
`.filter(v => typeof v === 'string' && v.length > 0)`. -/
def contentTextParts : JsonList → List String
  | .nil => []
  | .cons x xs =>
    match contentEntryText x with
    | some t => if 0 < t.length then t :: contentTextParts xs else contentTextParts xs
    | none => contentTextParts xs

/-- The content branch of `extractAnswerText` on an object:
`if (Array.isArray(record.content)) { ... if (textParts.length > 0) return textParts.join('\n'); }`.
`none` means the branch did not return and execution falls through. -/
def contentResult (fields : JsonFields) : Option String :=
  match jlookup fields "content" with
  | some (.arr items) =>
    let parts := contentTextParts items
    if parts.isEmpty then none else some (joinSep "\n" parts)
  | _ => none

/-- The text branch of `extractAnswerText` on an object:
`if (typeof record.text === 'string' && record.text.trim().length > 0) return record.text;`. -/
def textResult (fields : JsonFields) : Option String :=
  match jlookup fields "text" with
  | some (.str t) => if 0 < (jsTrim t).length then some t else none
  | _ => none

mutual
/-- `extractAnswerText(payload)` (source lines 216–267): best-effort
recursive search for a human-readable answer string. -/
def extractAnswerText (payload : JsonValue) : Option String :=
  if jsFalsy payload then none
  else
    match payload with
    | .str s => if jsTrim s = "" then none else some s
    | .arr items => extractItems items
    | .obj fields =>
      match contentResult fields with
      | some r => some r
      | none =>
        match textResult fields with
        | some t => some t
        | none =>
          match extractField fields "response" with
          | some s => some s
          | none => extractField fields "data"
    | _ => none
/-- The array case: `for (const item of payload) { const nested = extractAnswerText(item); if (nested) return nested; }`. -/
def extractItems : JsonList → Option String
  | .nil => none
  | .cons x xs =>
    match extractAnswerText x with
    | some s => if s = "" then extractItems xs else some s
    | none => extractItems xs
/-- Guarded recursion into an object field:
`if (record[key]) { const nested = extractAnswerText(record[key]); if (nested) return nested; }`.
Walks to the first matching key (the same field `jlookup` finds);
`none` means the step fell through. -/
def extractField : JsonFields → String → Option String
  | .nil, _ => none
  | .cons k v rest, key =>
    if k = key then
      if jsFalsy v then none
      else
        match extractAnswerText v with
        | some s => if s = "" then none else some s
        | none => none
    else extractField rest key
end

/-- JavaScript `a || b` on strings where absent values are modelled as
`""` (the only falsy string). -/
def jsOrS (a b : String) : String := if a = "" then b else a

/-- The resolved agent coordinates (return type of
`resolveAgentCoordinates`, source lines 73–91). -/
structure AgentCoordinates where
  database : String
  schema : String
  agentName : String

/-- The configuration sources `resolveAgentCoordinates` reads: each
`input*` field is the string `core.getInput(...)` returns (`""` when the
action input is not provided) and each `env*` field the corresponding
`process.env` variable (`""` models an unset variable, which behaves
identically under `||`). -/
structure ActionEnv where
  inputAgentDatabase : String
  envAgentDatabase : String
  envSnowflakeDatabase : String
  inputAgentSchema : String
  envAgentSchema : String
  envSnowflakeSchema : String
  inputAgentName : String
  envAgentName : String

/-- `resolveAgentCoordinates()` (source lines 73–91): explicit input,
else primary env var, else (database/schema only) secondary env var;
trim; throw naming the field when the result is empty. -/
def resolveAgentCoordinates (env : ActionEnv) : Except String AgentCoordinates :=
  let database :=
    jsTrim (jsOrS env.inputAgentDatabase (jsOrS env.envAgentDatabase env.envSnowflakeDatabase))
  let schema :=
    jsTrim (jsOrS env.inputAgentSchema (jsOrS env.envAgentSchema env.envSnowflakeSchema))
  let agentName := jsTrim (jsOrS env.inputAgentName env.envAgentName)
  if database = "" then
    Except.error "Provide `agent-database` or set AGENT_DATABASE/SNOWFLAKE_DATABASE."
  else if schema = "" then
    Except.error "Provide `agent-schema` or set AGENT_SCHEMA/SNOWFLAKE_SCHEMA."
  else if agentName = "" then
    Except.error "Provide `agent-name` or set AGENT_NAME."
  else Except.ok ⟨database, schema, agentName⟩

/-- Decimal digits to a natural number. -/
def digitsToNat (ds : List Char) : Nat :=
  ds.foldl (fun acc c => acc * 10 + (c.toNat - '0'.toNat)) 0

def takeDigits (cs : List Char) : List Char × List Char := cs.span Char.isDigit

/-- Assemble the exact value of a decimal numeral
`[-] ip [. fp] [e ex]` as an unreduced fraction. -/
def jsNumberOfParts (neg : Bool) (ip fp : List Char) (ex : Int) : JsNumber :=
  let base : Int := (digitsToNat ip * 10 ^ fp.length + digitsToNat fp : Nat)
  let n : Int := if neg then -base else base
  if 0 ≤ ex then ⟨n * ((10 ^ ex.toNat : Nat) : Int), 10 ^ fp.length⟩
  else ⟨n, 10 ^ fp.length * 10 ^ (-ex).toNat⟩

/-- Parse an optional exponent part `e`/`E` sign digits; `some (0, cs)`
when no exponent marker is present, `none` when a marker has no digits. -/
def parseExpPart (cs : List Char) : Option (Int × List Char) :=
  match cs with
  | [] => some (0, [])
  | e :: t =>
    if e = 'e' ∨ e = 'E' then
      let (sgn, t2) : Int × List Char :=
        match t with
        | '+' :: u => (1, u)
        | '-' :: u => (-1, u)
        | _ => (1, t)
      let (eds, r) := takeDigits t2
      if eds.isEmpty then none else some (sgn * (digitsToNat eds : Int), r)
    else some (0, cs)

/-- Modelled from the spec and ECMAScript: `Number(string)` restricted
to decimal numerals (`[+-]? digits [. digits]? [eE [+-]? digits]?`, with
either integer or fraction digits allowed to be absent but not both);
`none` models `NaN`.  The hex/octal/binary/`Infinity` forms `Number`
also accepts are outside the scope of the claims. -/
def jsStringToNumber (s : String) : Option JsNumber :=
  let cs := s.data
  let (neg, cs1) : Bool × List Char :=
    match cs with
    | '+' :: t => (false, t)
    | '-' :: t => (true, t)
    | _ => (false, cs)
  let (ip, cs2) := takeDigits cs1
  let (fp, cs3) : List Char × List Char :=
    match cs2 with
    | '.' :: t => takeDigits t
    | _ => ([], cs2)
  if ip.isEmpty ∧ fp.isEmpty then none
  else
    match parseExpPart cs3 with
    | none => none
    | some (ex, cs4) =>
      if cs4.isEmpty then some (jsNumberOfParts neg ip fp ex) else none

/-- `parseOptionalInteger(raw)` (source lines 124–137): absent or blank
input is `undefined`; otherwise `Number(trimmed)`, throwing on `NaN`,
else `Math.floor`. -/
def parseOptionalInteger (raw : Option String) : Except String (Option Int) :=
  match raw with
  | none => Except.ok none
  | some r =>
    if r = "" then Except.ok none
    else
      let trimmed := jsTrim r
      if trimmed = "" then Except.ok none
      else
        match jsStringToNumber trimmed with
        | none => Except.error ("Expected integer value, received: " ++ r)
        | some q => Except.ok (some q.floor)

def lbrace : Char := Char.ofNat 123

def rbrace : Char := Char.ofNat 125

/-- JSON whitespace (space, tab, line feed, carriage return). -/
def skipWs : List Char → List Char
  | [] => []
  | c :: rest =>
    if c = ' ' ∨ c = '\t' ∨ c = '\n' ∨ c = '\r' then skipWs rest else c :: rest

def parseHexDigit (c : Char) : Option Nat :=
  if '0' ≤ c ∧ c ≤ '9' then some (c.toNat - '0'.toNat)
  else if 'a' ≤ c ∧ c ≤ 'f' then some (c.toNat - 'a'.toNat + 10)
  else if 'A' ≤ c ∧ c ≤ 'F' then some (c.toNat - 'A'.toNat + 10)
  else none

/-- Scan a JSON string body after the opening quote: the decoded
characters and the remaining input after the closing quote.  Handles the
JSON escapes (including `\uXXXX` as a single code point); unescaped
control characters are rejected as in `JSON.parse`. -/
def parseStringBody : List Char → Option (List Char × List Char)
  | [] => none
  | c :: rest =>
    if c = '"' then some ([], rest)
    else if c = '\\' then
      match rest with
      | [] => none
      | e :: rest2 =>
        if e = '"' ∨ e = '\\' ∨ e = '/' then
          match parseStringBody rest2 with
          | some (tail, r) => some (e :: tail, r)
          | none => none
        else if e = 'b' ∨ e = 'f' ∨ e = 'n' ∨ e = 'r' ∨ e = 't' then
          let d : Char :=
            if e = 'b' then Char.ofNat 8
            else if e = 'f' then Char.ofNat 12
            else if e = 'n' then '\n'
            else if e = 'r' then '\r'
            else '\t'
          match parseStringBody rest2 with
          | some (tail, r) => some (d :: tail, r)
          | none => none
        else if e = 'u' then
          match rest2 with
          | h1 :: h2 :: h3 :: h4 :: rest3 =>
            match parseHexDigit h1, parseHexDigit h2, parseHexDigit h3, parseHexDigit h4 with
            | some a, some b, some c2, some d =>
              match parseStringBody rest3 with
              | some (tail, r) =>
                some (Char.ofNat (a * 4096 + b * 256 + c2 * 16 + d) :: tail, r)
              | none => none
            | _, _, _, _ => none
          | _ => none
        else none
    else if c.toNat < 32 then none
    else
      match parseStringBody rest with
      | some (tail, r) => some (c :: tail, r)
      | none => none

/-- Parse a JSON number token (`-? int frac? exp?`, leading zeros
rejected) into an exact value and the remaining input. -/
def parseJsonNumber (cs : List Char) : Option (JsNumber × List Char) :=
  let (neg, cs1) : Bool × List Char :=
    match cs with
    | '-' :: t => (true, t)
    | _ => (false, cs)
  let (ip, cs2) := takeDigits cs1
  if ip.isEmpty then none
  else if 1 < ip.length ∧ ip.head? = some '0' then none
  else
    let fracRes : Option (List Char × List Char) :=
      match cs2 with
      | '.' :: t =>
        let (ds, r) := takeDigits t
        if ds.isEmpty then none else some (ds, r)
      | _ => some ([], cs2)
    match fracRes with
    | none => none
    | some (fp, cs3) =>
      match parseExpPart cs3 with
      | none => none
      | some (ex, cs4) => some (jsNumberOfParts neg ip fp ex, cs4)

/-- JavaScript object assignment `acc[key] = v` while building a parsed
object: overwrite in place when the key exists, append otherwise. -/
def insertField (acc : List (String × JsonValue)) (k : String) (v : JsonValue) :
    List (String × JsonValue) :=
  if acc.any (fun p => p.1 = k) then
    acc.map (fun p => if p.1 = k then (k, v) else p)
  else acc ++ [(k, v)]

/-- The work items of the embedded `JSON.parse`: parse one value, the
remaining items of an array, or the remaining fields of an object. -/
inductive ParseTask where
  | value (cs : List Char)
  | arrItems (acc : List JsonValue) (cs : List Char)
  | objItems (acc : List (String × JsonValue)) (cs : List Char)

/-- The results of the corresponding `ParseTask`s. -/
inductive ParseOut where
  | val (v : JsonValue) (rest : List Char)
  | arrDone (items : List JsonValue) (rest : List Char)
  | objDone (fields : List (String × JsonValue)) (rest : List Char)

/-- One recursive-descent JSON parse, driven by a fuel counter so the
recursion is structural (every recursive call spends one unit; the
`jsonParse` wrapper supplies more fuel than any input can consume); the
error strings summarise the host engine's parse errors. -/
def parseStep : Nat → ParseTask → Except String ParseOut
  | 0, _ => Except.error "JSON input is nested too deeply"
  | fuel + 1, ParseTask.value cs =>
    match skipWs cs with
    | [] => Except.error "Unexpected end of JSON input"
    | c :: rest =>
      if c = lbrace then
        match skipWs rest with
        | [] => Except.error "Unexpected end of JSON input"
        | d :: rest2 =>
          if d = rbrace then Except.ok (ParseOut.val (JsonValue.obj .nil) rest2)
          else
            match parseStep fuel (ParseTask.objItems [] (d :: rest2)) with
            | Except.ok (ParseOut.objDone fs r) =>
              Except.ok (ParseOut.val (JsonValue.obj (JsonFields.ofList fs)) r)
            | Except.ok _ => Except.error "Unexpected JSON parse state"
            | Except.error e => Except.error e
      else if c = '[' then
        match skipWs rest with
        | [] => Except.error "Unexpected end of JSON input"
        | d :: rest2 =>
          if d = ']' then Except.ok (ParseOut.val (JsonValue.arr .nil) rest2)
          else
            match parseStep fuel (ParseTask.arrItems [] (d :: rest2)) with
            | Except.ok (ParseOut.arrDone items r) =>
              Except.ok (ParseOut.val (JsonValue.arr (JsonList.ofList items)) r)
            | Except.ok _ => Except.error "Unexpected JSON parse state"
            | Except.error e => Except.error e
      else if c = '"' then
        match parseStringBody rest with
        | some (content, r) => Except.ok (ParseOut.val (JsonValue.str (String.mk content)) r)
        | none => Except.error "Unterminated string in JSON"
      else
        match skipWs cs with
        | 't' :: 'r' :: 'u' :: 'e' :: r => Except.ok (ParseOut.val (JsonValue.bool true) r)
        | 'f' :: 'a' :: 'l' :: 's' :: 'e' :: r => Except.ok (ParseOut.val (JsonValue.bool false) r)
        | 'n' :: 'u' :: 'l' :: 'l' :: r => Except.ok (ParseOut.val JsonValue.null r)
        | other =>
          match parseJsonNumber other with
          | some (q, r) => Except.ok (ParseOut.val (JsonValue.num q) r)
          | none => Except.error "Unexpected token in JSON"
  | fuel + 1, ParseTask.arrItems acc cs =>
    match parseStep fuel (ParseTask.value cs) with
    | Except.ok (ParseOut.val v r) =>
      (match skipWs r with
       | [] => Except.error "Unexpected end of JSON input"
       | d :: r2 =>
         if d = ',' then parseStep fuel (ParseTask.arrItems (acc ++ [v]) r2)
         else if d = ']' then Except.ok (ParseOut.arrDone (acc ++ [v]) r2)
         else Except.error "Expected comma or closing bracket in JSON array")
    | Except.ok _ => Except.error "Unexpected JSON parse state"
    | Except.error e => Except.error e
  | fuel + 1, ParseTask.objItems acc cs =>
    match skipWs cs with
    | [] => Except.error "Unexpected end of JSON input"
    | c :: rest =>
      if c = '"' then
        match parseStringBody rest with
        | none => Except.error "Unterminated string in JSON"
        | some (keyChars, r) =>
          match skipWs r with
          | [] => Except.error "Unexpected end of JSON input"
          | c2 :: r2 =>
            if c2 = ':' then
              match parseStep fuel (ParseTask.value r2) with
              | Except.ok (ParseOut.val v r3) =>
                (match skipWs r3 with
                 | [] => Except.error "Unexpected end of JSON input"
                 | c3 :: r4 =>
                   if c3 = ',' then
                     parseStep fuel (ParseTask.objItems (insertField acc (String.mk keyChars) v) r4)
                   else if c3 = rbrace then
                     Except.ok (ParseOut.objDone (insertField acc (String.mk keyChars) v) r4)
                   else Except.error "Expected comma or closing brace in JSON object")
              | Except.ok _ => Except.error "Unexpected JSON parse state"
              | Except.error e => Except.error e
            else Except.error "Expected colon in JSON object"
      else Except.error "Expected string key in JSON object"

/-- `JSON.parse(s)` for the value language of `JsonValue`: parse one
value and require only whitespace after it. -/
def jsonParse (s : String) : Except String JsonValue :=
  match parseStep (2 * s.data.length + 4) (ParseTask.value s.data) with
  | Except.ok (ParseOut.val v rest) =>
    if (skipWs rest).isEmpty then Except.ok v
    else Except.error "Unexpected non-whitespace character after JSON data"
  | Except.ok _ => Except.error "Unexpected JSON parse state"
  | Except.error e => Except.error e

/-- The fallback branch of `parseMessages` (source lines 106–121):
wrap the single plain-text message, or throw when it is blank too. -/
def parseMessagesFallback (fallbackMessage : Option String) : Except String JsonList :=
  let single := jsTrim (match fallbackMessage with | none => "" | some m => m)
  if single = "" then
    Except.error "Provide `message` input, AGENT_MESSAGE env, or a messages array."
  else
    Except.ok (.cons
      (.obj (.cons "role" (.str "user")
        (.cons "content" (.arr (.cons
          (.obj (.cons "type" (.str "text") (.cons "text" (.str single) .nil)))
          .nil)) .nil)))
      .nil)

/-- `parseMessages(rawMessages, fallbackMessage)` (source lines 93–122):
a non-blank raw string must parse as a JSON array (the array check's own
throw is caught and re-wrapped by the same `catch`); otherwise fall back
to the single message. -/
def parseMessages (rawMessages fallbackMessage : Option String) : Except String JsonList :=
  match rawMessages with
  | some raw =>
    if raw ≠ "" ∧ 0 < (jsTrim raw).length then
      match jsonParse raw with
      | Except.ok (JsonValue.arr ms) => Except.ok ms
      | Except.ok _ => Except.error "Invalid messages JSON: messages must be a JSON array."
      | Except.error e => Except.error ("Invalid messages JSON: " ++ e)
    else parseMessagesFallback fallbackMessage
  | none => parseMessagesFallback fallbackMessage

/-- JSON string escaping as `JSON.stringify` performs it. -/
def escapeChar (c : Char) : String :=
  if c = '"' then "\\\""
  else if c = '\\' then "\\\\"
  else if c = '\n' then "\\n"
  else if c = '\t' then "\\t"
  else if c = '\r' then "\\r"
  else if c = Char.ofNat 8 then "\\b"
  else if c = Char.ofNat 12 then "\\f"
  else if c.toNat < 32 then
    "\\u00" ++
      String.mk [
        (if c.toNat / 16 < 10 then Char.ofNat ('0'.toNat + c.toNat / 16)
         else Char.ofNat ('a'.toNat + (c.toNat / 16 - 10))),
        (if c.toNat % 16 < 10 then Char.ofNat ('0'.toNat + c.toNat % 16)
         else Char.ofNat ('a'.toNat + (c.toNat % 16 - 10)))]
  else String.singleton c

def quoteJsonString (s : String) : String :=
  "\"" ++ String.join (s.data.map escapeChar) ++ "\""

def spaces (n : Nat) : String := String.mk (List.replicate n ' ')

/-- Decimal digits of the fraction `r / den` (with `0 ≤ r < den`),
stopping when the remainder reaches zero; exact whenever `den` is a
power of ten (which is the only case the embedded producers create). -/
def fracDigits : Nat → Nat → Nat → String
  | 0, _, _ => ""
  | fuel + 1, r, den =>
    if r = 0 then ""
    else
      String.singleton (Char.ofNat ('0'.toNat + r * 10 / den)) ++
        fracDigits fuel (r * 10 % den) den

/-- Number formatting as `JSON.stringify` prints the numbers the
embedded producers create (integers plainly, other values in plain
decimal notation with no trailing zeros). -/
def jsNumberToString (q : JsNumber) : String :=
  if q.den = 1 then toString q.num
  else
    let a := q.num.natAbs
    if a % q.den = 0 then (if q.num < 0 then "-" else "") ++ toString (a / q.den)
    else
      (if q.num < 0 then "-" else "") ++ toString (a / q.den) ++ "." ++
        fracDigits 64 (a % q.den) q.den

mutual
/-- `JSON.stringify(v, null, 2)` at nesting indent `indent`: the
pretty-printing used by `persistResponse` (source line 185). -/
def stringifyVal (indent : Nat) : JsonValue → String
  | .null => "null"
  | .bool b => if b then "true" else "false"
  | .num q => jsNumberToString q
  | .str s => quoteJsonString s
  | .arr .nil => "[]"
  | .arr items =>
    "[\n" ++ joinSep ",\n" (stringifyItems (indent + 2) items) ++ "\n" ++ spaces indent ++ "]"
  | .obj .nil => "\x7b\x7d"
  | .obj fields =>
    "\x7b\n" ++ joinSep ",\n" (stringifyFields (indent + 2) fields) ++ "\n" ++ spaces indent ++
      "\x7d"
/-- The pretty-printed lines of an array's items. -/
def stringifyItems (indent : Nat) : JsonList → List String
  | .nil => []
  | .cons x xs => (spaces indent ++ stringifyVal indent x) :: stringifyItems indent xs
/-- The pretty-printed lines of an object's fields. -/
def stringifyFields (indent : Nat) : JsonFields → List String
  | .nil => []
  | .cons k v rest =>
    (spaces indent ++ quoteJsonString k ++ ": " ++ stringifyVal indent v) ::
      stringifyFields indent rest
end

/-- `JSON.stringify(v, null, 2)`. -/
def jsonStringify2 (v : JsonValue) : String := stringifyVal 0 v

/-- One directory entry as the persistence code sees it.  `statError`
models `fs.statSync` throwing for this entry (e.g. concurrently
deleted), `unlinkError` models `fs.unlinkSync` throwing; the source
catches either and moves on. -/
structure DirEntry where
  name : String
  isFile : Bool
  mtimeMs : Int
  contents : String
  statError : Bool
  unlinkError : Bool
deriving DecidableEq

/-- `MAX_PERSIST_FILE_AGE_MS = 24 * 60 * 60 * 1000` (source line 140). -/
def MAX_PERSIST_FILE_AGE_MS : Int := 24 * 60 * 60 * 1000

/-- `cleanupPersistedFiles(dir, maxAgeMs)` (source lines 195–214), as a
transformation of the directory listing: skip non-files, delete regular
files strictly older than `maxAgeMs`, and treat any per-entry error as
"caught: entry left in place, sweep continues".  The function is total,
so no entry's failure can abort the sweep. -/
def cleanupPersistedFiles (now maxAgeMs : Int) : List DirEntry → List DirEntry
  | [] => []
  | e :: rest =>
    let keep :=
      if e.statError then true
      else if !e.isFile then true
      else if maxAgeMs < now - e.mtimeMs then e.unlinkError
      else true
    if keep then e :: cleanupPersistedFiles now maxAgeMs rest
    else cleanupPersistedFiles now maxAgeMs rest

/-- The components of a JavaScript `Date` that `persistResponse` reads
(`getMonth()` is 0-based, as in JavaScript; the local-time fields are
taken as given since time zones are outside the embedding). -/
structure JsDate where
  fullYear : Int
  month : Nat
  day : Nat
  hours : Nat
  minutes : Nat
  seconds : Nat
  epochMillis : Int

/-- `String(n).padStart(2, '0')`. -/
def pad2 (n : Nat) : String :=
  let s := toString n
  if s.length < 2 then String.mk (List.replicate (2 - s.length) '0') ++ s else s

/-- The `datestamp` template literal of `persistResponse`
(source lines 179–183). -/
def datestamp (d : JsDate) : String :=
  toString d.fullYear ++ pad2 (d.month + 1) ++ pad2 d.day ++ "-" ++
    pad2 d.hours ++ pad2 d.minutes ++ pad2 d.seconds

/-- The persisted file name `agent-result-<datestamp>-<epochMillis>.json`
(source line 184). -/
def persistFileName (d : JsDate) : String :=
  "agent-result-" ++ datestamp d ++ "-" ++ toString d.epochMillis ++ ".json"

/-- `payload ?? {}`: `undefined` and `null` are replaced by the empty
object. -/
def jsPayloadOrEmpty : Option JsonValue → JsonValue
  | none => .obj .nil
  | some .null => .obj .nil
  | some v => v

/-- The directory entry `persistResponse` writes. -/
def newPersistEntry (payload : Option JsonValue) (d : JsDate) : DirEntry :=
  { name := persistFileName d
    isFile := true
    mtimeMs := d.epochMillis
    contents := jsonStringify2 (jsPayloadOrEmpty payload)
    statError := false
    unlinkError := false }

/-- `persistResponse(payload, dir)` (source lines 174–187): ensure the
directory exists (`none` models an absent directory, created empty by
`mkdirSync`), sweep stale files, then write the timestamped pretty-
printed JSON snapshot.  `sweepNow` is the `Date.now()` the sweep reads,
`d` the `new Date()` read afterwards for the file name.  Returns the
file path (modelled by its name) and the directory contents after the
call. -/
def persistResponse (payload : Option JsonValue) (dir : Option (List DirEntry))
    (sweepNow : Int) (d : JsDate) : String × List DirEntry :=
  let entries0 : List DirEntry :=
    match dir with
    | none => []
    | some es => es
  let entries1 := cleanupPersistedFiles sweepNow MAX_PERSIST_FILE_AGE_MS entries0
  (persistFileName d, entries1 ++ [newPersistEntry payload d])

theorem string_length_pos {s : String} (h : s ≠ "") : 1 ≤ s.length := by
  rcases s with ⟨data⟩
  cases data with
  | nil => exact absurd rfl h
  | cons c cs => simp [String.length]

theorem string_ne_empty_of_len {s : String} (h : 1 ≤ s.length) : s ≠ "" := by
  intro he
  subst he
  simp [String.length] at h

theorem jsTrim_empty : jsTrim "" = "" := rfl

theorem ne_empty_of_jsTrim {s : String} (h : jsTrim s ≠ "") : s ≠ "" := by
  intro he
  exact h (he ▸ jsTrim_empty)

theorem joinSep_cons_len (sep p : String) (ps : List String) :
    p.length ≤ (joinSep sep (p :: ps)).length := by
  cases ps with
  | nil => simp [joinSep]
  | cons q qs =>
    simp only [joinSep, String.length_append]
    omega

theorem contentTextParts_pos : ∀ (items : JsonList) (t : String),
    t ∈ contentTextParts items → 1 ≤ t.length
  | .nil, t, h => by simp [contentTextParts] at h
  | .cons x xs, t, h => by
    simp only [contentTextParts] at h
    cases hc : contentEntryText x with
    | some u =>
      rw [hc] at h
      by_cases hl : 0 < u.length
      · simp only [hl, if_true, List.mem_cons] at h
        rcases h with h | h
        · subst h; omega
        · exact contentTextParts_pos xs t h
      · simp only [hl, if_false] at h
        exact contentTextParts_pos xs t h
    | none =>
      rw [hc] at h
      exact contentTextParts_pos xs t h

theorem contentResult_len_pos {fields : JsonFields} {r : String}
    (h : contentResult fields = some r) : 1 ≤ r.length := by
  unfold contentResult at h
  cases hl : jlookup fields "content" with
  | none => rw [hl] at h; simp at h
  | some v =>
    rw [hl] at h
    cases v with
    | arr items =>
      simp only at h
      by_cases he : (contentTextParts items).isEmpty
      · simp [he] at h
      · cases hp : contentTextParts items with
        | nil => rw [hp] at he; simp at he
        | cons p ps =>
          have hmem : p ∈ contentTextParts items := by
            rw [hp]; exact List.mem_cons_self _ _
          have h1 := contentTextParts_pos items p hmem
          have h2 := joinSep_cons_len "\n" p ps
          rw [hp] at h
          simp at h
          rw [← h]
          omega
    | null => simp at h
    | bool b => simp at h
    | num q => simp at h
    | str s => simp at h
    | obj fs => simp at h

theorem textResult_spec {fields : JsonFields} {t : String} (h : textResult fields = some t) :
    jlookup fields "text" = some (.str t) ∧ 0 < (jsTrim t).length := by
  unfold textResult at h
  cases hl : jlookup fields "text" with
  | none => rw [hl] at h; simp at h
  | some v =>
    rw [hl] at h
    cases v with
    | str u =>
      by_cases ht : 0 < (jsTrim u).length
      · simp only [ht, if_true, Option.some.injEq] at h
        subst h
        exact ⟨rfl, ht⟩
      · simp [ht] at h
    | null => simp at h
    | bool b => simp at h
    | num q => simp at h
    | arr items => simp at h
    | obj fs => simp at h

theorem textResult_len_pos {fields : JsonFields} {t : String}
    (h : textResult fields = some t) : 1 ≤ t.length :=
  string_length_pos (ne_empty_of_jsTrim (string_ne_empty_of_len (textResult_spec h).2))

theorem extractField_len_pos : ∀ (fields : JsonFields) (key s : String),
    extractField fields key = some s → 1 ≤ s.length
  | .nil, _, s, h => by simp [extractField] at h
  | .cons k v rest, key, s, h => by
    simp only [extractField] at h
    by_cases hk : k = key
    · simp only [hk, if_true] at h
      cases hf : jsFalsy v with
      | true => simp [hf] at h
      | false =>
        simp only [hf, Bool.false_eq_true, if_false] at h
        cases he : extractAnswerText v with
        | none => simp [he] at h
        | some u =>
          rw [he] at h
          by_cases hu : u = ""
          · simp [hu] at h
          · simp only [hu, if_false, Option.some.injEq] at h
            subst h
            exact string_length_pos hu
    · simp only [hk, if_false] at h
      exact extractField_len_pos rest key s h

theorem extractItems_len_pos : ∀ (items : JsonList) (s : String),
    extractItems items = some s → 1 ≤ s.length
  | .cons x xs, s, h => by
    simp only [extractItems] at h
    cases he : extractAnswerText x with
    | none =>
      rw [he] at h
      exact extractItems_len_pos xs s h
    | some u =>
      rw [he] at h
      by_cases hu : u = ""
      · simp only [hu, if_true] at h
        exact extractItems_len_pos xs s h
      · simp only [hu, if_false, Option.some.injEq] at h
        subst h
        exact string_length_pos hu
  | .nil, s, h => by simp [extractItems] at h

theorem extract_len_pos : ∀ (v : JsonValue) (s : String),
    extractAnswerText v = some s → 1 ≤ s.length := by
  intro v s h
  unfold extractAnswerText at h
  cases v with
  | null => simp [jsFalsy] at h
  | bool b => cases b <;> simp [jsFalsy] at h
  | num q => by_cases hq : q.num = 0 <;> simp [jsFalsy, hq] at h
  | str t =>
    by_cases ht : t = ""
    · subst ht; simp [jsFalsy] at h
    · simp only [jsFalsy, beq_iff_eq, ht, if_false] at h
      by_cases htr : jsTrim t = ""
      · simp [htr] at h
      · simp only [htr, if_false, Option.some.injEq] at h
        subst h
        exact string_length_pos ht
  | arr items =>
    simp only [jsFalsy, Bool.false_eq_true, if_false] at h
    exact extractItems_len_pos items s h
  | obj fields =>
    simp only [jsFalsy, Bool.false_eq_true, if_false] at h
    cases hc : contentResult fields with
    | some r =>
      rw [hc] at h
      simp only [Option.some.injEq] at h
      subst h
      exact contentResult_len_pos hc
    | none =>
      rw [hc] at h
      cases ht : textResult fields with
      | some t =>
        rw [ht] at h
        simp only [Option.some.injEq] at h
        subst h
        exact textResult_len_pos ht
      | none =>
        rw [ht] at h
        cases hr : extractField fields "response" with
        | some u =>
          rw [hr] at h
          simp only [Option.some.injEq] at h
          subst h
          exact extractField_len_pos fields "response" _ hr
        | none =>
          rw [hr] at h
          exact extractField_len_pos fields "data" s h

theorem extractField_eq_lookup : ∀ (fields : JsonFields) (key : String),
    extractField fields key =
      (match jlookup fields key with
       | some v =>
         if jsFalsy v then none
         else
           match extractAnswerText v with
           | some s => if s = "" then none else some s
           | none => none
       | none => none)
  | .nil, _ => rfl
  | .cons k v rest, key => by
    by_cases hk : k = key
    · simp only [extractField, jlookup, hk, if_true]
    · simp only [extractField, jlookup, hk, if_false]
      exact extractField_eq_lookup rest key

theorem cleanup_eq_filter (now m : Int) : ∀ entries : List DirEntry,
    cleanupPersistedFiles now m entries =
      entries.filter (fun e =>
        e.statError || !e.isFile || decide (now - e.mtimeMs ≤ m) || e.unlinkError)
  | [] => rfl
  | x :: rest => by
    simp only [cleanupPersistedFiles, List.filter_cons]
    have hk : (if x.statError then true
        else if !x.isFile then true
        else if m < now - x.mtimeMs then x.unlinkError else true) =
        (x.statError || !x.isFile || decide (now - x.mtimeMs ≤ m) || x.unlinkError) := by
      cases x.statError <;> cases x.isFile <;> cases x.unlinkError <;>
        rcases lt_or_le m (now - x.mtimeMs) with hcmp | hcmp
      all_goals simp [hcmp]
      all_goals first | exact not_le.mpr hcmp | exact hcmp.not_lt | omega
    rw [hk, cleanup_eq_filter now m rest]

theorem resolveAgentCoordinates_ok {env : ActionEnv} {c : AgentCoordinates}
    (h : resolveAgentCoordinates env = Except.ok c) :
    c.database =
        jsTrim (jsOrS env.inputAgentDatabase (jsOrS env.envAgentDatabase env.envSnowflakeDatabase)) ∧
    c.schema =
        jsTrim (jsOrS env.inputAgentSchema (jsOrS env.envAgentSchema env.envSnowflakeSchema)) ∧
    c.agentName = jsTrim (jsOrS env.inputAgentName env.envAgentName) ∧
    c.database ≠ "" ∧ c.schema ≠ "" ∧ c.agentName ≠ "" := by
  simp only [resolveAgentCoordinates] at h
  split_ifs at h with h1 h2 h3
  injection h with h
  subst h
  exact ⟨rfl, rfl, rfl, h1, h2, h3⟩

theorem resolveAgentCoordinates_err_database {env : ActionEnv}
    (h : jsTrim (jsOrS env.inputAgentDatabase
        (jsOrS env.envAgentDatabase env.envSnowflakeDatabase)) = "") :
    resolveAgentCoordinates env =
      Except.error "Provide `agent-database` or set AGENT_DATABASE/SNOWFLAKE_DATABASE." := by
  simp only [resolveAgentCoordinates, h, if_true]

theorem resolveAgentCoordinates_err_schema {env : ActionEnv}
    (h1 : jsTrim (jsOrS env.inputAgentDatabase
        (jsOrS env.envAgentDatabase env.envSnowflakeDatabase)) ≠ "")
    (h2 : jsTrim (jsOrS env.inputAgentSchema
        (jsOrS env.envAgentSchema env.envSnowflakeSchema)) = "") :
    resolveAgentCoordinates env =
      Except.error "Provide `agent-schema` or set AGENT_SCHEMA/SNOWFLAKE_SCHEMA." := by
  simp only [resolveAgentCoordinates, h1, h2, if_true, if_false]

theorem resolveAgentCoordinates_err_name {env : ActionEnv}
    (h1 : jsTrim (jsOrS env.inputAgentDatabase
        (jsOrS env.envAgentDatabase env.envSnowflakeDatabase)) ≠ "")
    (h2 : jsTrim (jsOrS env.inputAgentSchema
        (jsOrS env.envAgentSchema env.envSnowflakeSchema)) ≠ "")
    (h3 : jsTrim (jsOrS env.inputAgentName env.envAgentName) = "") :
    resolveAgentCoordinates env = Except.error "Provide `agent-name` or set AGENT_NAME." := by
  simp only [resolveAgentCoordinates, h1, h2, h3, if_true, if_false]

theorem extract_obj (fields : JsonFields) :
    extractAnswerText (.obj fields) =
      (match contentResult fields with
       | some r => some r
       | none =>
         match textResult fields with
         | some t => some t
         | none =>
           match extractField fields "response" with
           | some s => some s
           | none => extractField fields "data") := rfl

theorem extract_str (s : String) :
    extractAnswerText (.str s) =
      if s = "" then none else if jsTrim s = "" then none else some s := by
  simp only [extractAnswerText, jsFalsy]
  by_cases hs : s = "" <;> simp [hs]

theorem contentResult_of_parts {fields : JsonFields} {items : JsonList}
    (hl : jlookup fields "content" = some (.arr items))
    (hp : contentTextParts items ≠ []) :
    contentResult fields = some (joinSep "\n" (contentTextParts items)) := by
  unfold contentResult
  rw [hl]
  simp only [List.isEmpty_eq_true, hp, if_false]

theorem contentResult_of_no_parts {fields : JsonFields} {items : JsonList}
    (hl : jlookup fields "content" = some (.arr items))
    (hp : contentTextParts items = []) :
    contentResult fields = none := by
  unfold contentResult
  rw [hl]
  simp only [List.isEmpty_eq_true, hp, if_true]

/-- Claim C2, as stated, is falsified here: the element `{text: ""}` of a
`content` array is an object with a string `text` field, so its text is
"found" by the mapping step (first conjunct), yet `extractAnswerText`
returns `undefined` rather than the newline-join of all found strings
(second conjunct), because the source filters the mapped parts by
`length > 0` before joining. -/
theorem c2_counterexample :
    contentEntryText (.obj (.cons "text" (.str "") .nil)) = some "" ∧
    extractAnswerText (.obj (.cons "content"
      (.arr (.cons (.obj (.cons "text" (.str "") .nil)) .nil)) .nil)) = none :=
  ⟨rfl, rfl⟩

/-- Claim C2 (amended): for every object whose `content` field is an
array, extract maps each element to its `text` field when that element
is an object with a string `text`, keeps the found text strings of
positive length (dropping empty ones like elements without one), and,
if at least one remains, returns them joined with newline; this takes
precedence over a sibling `text` field.  In particular
`extract({content:[{text:"a"},{text:"b"}]}) = "a\nb"`, and an object
with both a text-yielding content array and a `text` field returns the
content-derived joined string. -/
theorem c2_content_branch :
    (∀ (fields : JsonFields) (items : JsonList),
      jlookup fields "content" = some (.arr items) →
      contentTextParts items ≠ [] →
      extractAnswerText (.obj fields) = some (joinSep "\n" (contentTextParts items))) ∧
    extractAnswerText (.obj (.cons "content" (.arr (.cons (.obj (.cons "text" (.str "a") .nil))
      (.cons (.obj (.cons "text" (.str "b") .nil)) .nil))) .nil)) = some "a\nb" ∧
    extractAnswerText (.obj (.cons "content" (.arr (.cons (.obj (.cons "text" (.str "a") .nil))
      .nil)) (.cons "text" (.str "z") .nil))) = some "a" := by
  refine ⟨?_, rfl, rfl⟩
  intro fields items hl hp
  rw [extract_obj, contentResult_of_parts hl hp]

/-- Witness for `c2_content_branch`: its universal part applied to the
concrete object `{content: [{text: "a"}]}`. -/
theorem c2_witness :
    extractAnswerText (.obj (.cons "content"
        (.arr (.cons (.obj (.cons "text" (.str "a") .nil)) .nil)) .nil)) =
      some (joinSep "\n" (contentTextParts
        (.cons (.obj (.cons "text" (.str "a") .nil)) .nil))) :=
  c2_content_branch.1 _ _ rfl (by decide)

/-- Claim C3, as stated, is falsified here: the object handling is not a
strict else-if chain.  First conjunct: an object whose `content` array
yields no text string still consults `text` (`{content: [], text:
"hello"}` returns `"hello"`, where the claim says `text` is never
consulted).  Second conjunct: an object that has a (truthy) `response`
field which yields no answer still consults `data` (`{response: {},
data: {text: "x"}}` returns `"x"`, where the claim says `data` is
consulted only when the object has no `response` field). -/
theorem c3_counterexample :
    extractAnswerText (.obj (.cons "content" (.arr .nil)
      (.cons "text" (.str "hello") .nil))) = some "hello" ∧
    extractAnswerText (.obj (.cons "response" (.obj .nil)
      (.cons "data" (.obj (.cons "text" (.str "x") .nil)) .nil))) = some "x" :=
  ⟨rfl, rfl⟩

/-- Claim C3 (amended): extract's object handling is a sequence of
fall-through checks.  The content branch decides the result only when it
yields at least one text part; when it yields none (including when the
`content` array is empty or has no usable `text` entries), evaluation
falls through to the `text` check.  A non-blank string `text` field is
returned whenever the content branch yields nothing; `response` is
consulted only when content and text both yield nothing; and `data` is
consulted when, additionally, the `response` field is absent, falsy, or
its recursive extraction yields no (truthy) answer. -/
theorem c3_fallthrough_chain :
    (∀ (fields : JsonFields) (t : String), contentResult fields = none →
      textResult fields = some t → extractAnswerText (.obj fields) = some t) ∧
    (∀ (fields : JsonFields) (items : JsonList) (t : String),
      jlookup fields "content" = some (.arr items) → contentTextParts items = [] →
      textResult fields = some t → extractAnswerText (.obj fields) = some t) ∧
    (∀ (fields : JsonFields) (v : JsonValue) (s : String),
      contentResult fields = none → textResult fields = none →
      jlookup fields "response" = some v → jsFalsy v = false →
      extractAnswerText v = some s → extractAnswerText (.obj fields) = some s) ∧
    (∀ (fields : JsonFields) (v w : JsonValue) (s : String),
      contentResult fields = none → textResult fields = none →
      jlookup fields "response" = some v → extractAnswerText v = none →
      jlookup fields "data" = some w → jsFalsy w = false →
      extractAnswerText w = some s → extractAnswerText (.obj fields) = some s) := by
  have hfield : ∀ (fields : JsonFields) (key : String) (v : JsonValue) (s : String),
      jlookup fields key = some v → jsFalsy v = false → extractAnswerText v = some s →
      extractField fields key = some s := by
    intro fields key v s hl hf he
    have hs : s ≠ "" := string_ne_empty_of_len (extract_len_pos v s he)
    rw [extractField_eq_lookup fields key, hl]
    simp [hf, he, hs]
  have hfieldnone : ∀ (fields : JsonFields) (key : String) (v : JsonValue),
      jlookup fields key = some v → extractAnswerText v = none →
      extractField fields key = none := by
    intro fields key v hl he
    rw [extractField_eq_lookup fields key, hl]
    cases hf : jsFalsy v <;> simp [hf, he]
  refine ⟨?_, ?_, ?_, ?_⟩
  · intro fields t hc ht
    rw [extract_obj, hc, ht]
  · intro fields items t hl hp ht
    rw [extract_obj, contentResult_of_no_parts hl hp, ht]
  · intro fields v s hc ht hl hf he
    rw [extract_obj, hc, ht, hfield fields "response" v s hl hf he]
  · intro fields v w s hc ht hlr her hld hf he
    rw [extract_obj, hc, ht, hfieldnone fields "response" v hlr her,
      hfield fields "data" w s hld hf he]

/-- Witness for `c3_fallthrough_chain`: each conjunct applied to a
concrete object — text-only, content-that-yields-nothing plus text,
response holding the answer, and data reached after a fruitless
response. -/
theorem c3_witness :
    extractAnswerText (.obj (.cons "text" (.str "z") .nil)) = some "z" ∧
    extractAnswerText (.obj (.cons "content" (.arr .nil)
      (.cons "text" (.str "hi") .nil))) = some "hi" ∧
    extractAnswerText (.obj (.cons "response"
      (.obj (.cons "text" (.str "x") .nil)) .nil)) = some "x" ∧
    extractAnswerText (.obj (.cons "response" (.str "")
      (.cons "data" (.obj (.cons "text" (.str "y") .nil)) .nil))) = some "y" :=
  ⟨c3_fallthrough_chain.1 _ "z" rfl rfl,
   c3_fallthrough_chain.2.1 _ _ "hi" rfl rfl rfl,
   c3_fallthrough_chain.2.2.1 _ _ "x" rfl rfl rfl rfl rfl,
   c3_fallthrough_chain.2.2.2 _ _ _ "y" rfl rfl rfl rfl rfl rfl rfl⟩

/-- Claim C8: blank strings are not answers.  A whitespace-only (or
empty) string extracts to `undefined` while a non-blank string returns
itself; an object whose `text` field is blank (with no other branch
yielding a result) extracts to `undefined`; in particular
`extract({text: ""}) = undefined`. -/
theorem c8_blank_strings :
    (∀ s : String, jsTrim s = "" → extractAnswerText (.str s) = none) ∧
    (∀ s : String, jsTrim s ≠ "" → extractAnswerText (.str s) = some s) ∧
    (∀ (fields : JsonFields) (t : String),
      jlookup fields "text" = some (.str t) → jsTrim t = "" →
      contentResult fields = none →
      extractField fields "response" = none → extractField fields "data" = none →
      extractAnswerText (.obj fields) = none) ∧
    extractAnswerText (.obj (.cons "text" (.str "") .nil)) = none := by
  refine ⟨?_, ?_, ?_, rfl⟩
  · intro s h
    rw [extract_str]
    by_cases hs : s = "" <;> simp [hs, h]
  · intro s h
    rw [extract_str]
    simp [ne_empty_of_jsTrim h, h]
  · intro fields t hl ht hc hr hd
    have htr : textResult fields = none := by
      unfold textResult
      rw [hl]
      simp [ht]
    rw [extract_obj, hc, htr, hr, hd]

/-- Witness for `c8_blank_strings`: its conjuncts applied to the blank
string `"  "`, the non-blank string `" hi "`, and the object
`{text: " "}`. -/
theorem c8_witness :
    extractAnswerText (.str "  ") = none ∧
    extractAnswerText (.str " hi ") = some " hi " ∧
    extractAnswerText (.obj (.cons "text" (.str " ") .nil)) = none :=
  ⟨c8_blank_strings.1 "  " rfl,
   c8_blank_strings.2.1 " hi " (by decide),
   c8_blank_strings.2.2.1 _ " " rfl rfl rfl rfl rfl⟩

/-- Claim C9: `extractAnswerText` never returns the empty string (every
returned string has length at least one), but its non-blank guarantee
does not extend to the content-array path: content parts are filtered
only by `length > 0`, not by blankness, so `{content: [{text: " "}]}`
extracts to the whitespace-only string `" "`. -/
theorem c9_no_empty_answers :
    (∀ (v : JsonValue) (s : String), extractAnswerText v = some s → 1 ≤ s.length) ∧
    extractAnswerText (.obj (.cons "content"
      (.arr (.cons (.obj (.cons "text" (.str " ") .nil)) .nil)) .nil)) = some " " :=
  ⟨extract_len_pos, rfl⟩

/-- Witness for `c9_no_empty_answers`: its universal part applied to the
string payload `"x"`. -/
theorem c9_witness : 1 ≤ ("x" : String).length :=
  c9_no_empty_answers.1 (.str "x") "x" rfl

/-- Claim C1, as stated, is falsified here: the raw messages string
`"[]"` parses as a JSON array, so `parseMessages` succeeds, yet the
resulting messages sequence is empty — the non-emptiness invariant does
not hold on the raw-JSON-path. -/
theorem c1_counterexample : parseMessages (some "[]") none = Except.ok JsonList.nil := rfl

/-- Claim C1 (amended): when normalization succeeds, every
`AgentCoordinates` field is a non-empty string, and the messages
sequence is non-empty whenever it was produced by the single-message
fallback path; on the raw path any JSON array is accepted verbatim, so
an input parsing to the empty array yields an empty messages sequence. -/
theorem c1_normalization_invariant :
    (∀ (env : ActionEnv) (c : AgentCoordinates), resolveAgentCoordinates env = Except.ok c →
      c.database ≠ "" ∧ c.schema ≠ "" ∧ c.agentName ≠ "") ∧
    (∀ (raw fb : Option String) (ms : JsonList), parseMessages raw fb = Except.ok ms →
      ms ≠ JsonList.nil ∨ ∃ s, raw = some s ∧ jsonParse s = Except.ok (JsonValue.arr ms)) := by
  constructor
  · intro env c h
    obtain ⟨_, _, _, h4, h5, h6⟩ := resolveAgentCoordinates_ok h
    exact ⟨h4, h5, h6⟩
  · have hfb : ∀ (fb : Option String) (ms : JsonList),
        parseMessagesFallback fb = Except.ok ms → ms ≠ JsonList.nil := by
      intro fb ms h
      unfold parseMessagesFallback at h
      dsimp only at h
      split_ifs at h
      injection h with h
      rw [← h]
      intro hcon
      exact JsonList.noConfusion hcon
    intro raw fb ms h
    cases raw with
    | none => exact Or.inl (hfb fb ms h)
    | some s =>
      unfold parseMessages at h
      dsimp only at h
      by_cases hc : s ≠ "" ∧ 0 < (jsTrim s).length
      · rw [if_pos hc] at h
        cases hp : jsonParse s with
        | error e => rw [hp] at h; exact Except.noConfusion h
        | ok v =>
          rw [hp] at h
          cases v with
          | arr ms0 =>
            injection h with h
            subst h
            exact Or.inr ⟨s, rfl, hp⟩
          | null => exact Except.noConfusion h
          | bool b => exact Except.noConfusion h
          | num q => exact Except.noConfusion h
          | str t => exact Except.noConfusion h
          | obj fs => exact Except.noConfusion h
      · rw [if_neg hc] at h
        exact Or.inl (hfb fb ms h)

/-- Witness for `c1_normalization_invariant`: the coordinates part
applied to a fully explicit configuration, and the messages part applied
to the single-message fallback `message = "hi"`. -/
theorem c1_witness :
    ((⟨"db", "sc", "ag"⟩ : AgentCoordinates).database ≠ "" ∧
      (⟨"db", "sc", "ag"⟩ : AgentCoordinates).schema ≠ "" ∧
      (⟨"db", "sc", "ag"⟩ : AgentCoordinates).agentName ≠ "") ∧
    ((JsonList.cons (.obj (.cons "role" (.str "user")
        (.cons "content" (.arr (.cons
          (.obj (.cons "type" (.str "text") (.cons "text" (.str "hi") .nil)))
          .nil)) .nil))) .nil) ≠ JsonList.nil ∨
      ∃ s, (none : Option String) = some s ∧
        jsonParse s = Except.ok (JsonValue.arr (JsonList.cons (.obj (.cons "role" (.str "user")
          (.cons "content" (.arr (.cons
            (.obj (.cons "type" (.str "text") (.cons "text" (.str "hi") .nil)))
            .nil)) .nil))) .nil))) :=
  ⟨c1_normalization_invariant.1 ⟨"db", "", "", "sc", "", "", "ag", ""⟩ ⟨"db", "sc", "ag"⟩ rfl,
   c1_normalization_invariant.2 none (some "hi") _ rfl⟩

/-- Claim C4: on every persist call the pre-write sweep runs first
(second conjunct: the resulting directory is exactly the swept entries
plus the newly written file), and the sweep retains an entry exactly
when it errored on stat, is not a regular file, is not strictly older
than the 24-hour window, or errored on unlink (first conjunct) — so it
deletes exactly the error-free regular files whose age exceeds 24 hours,
retains newer files, skips directories, and swallows per-entry errors
without aborting (the sweep and persist are total functions of the
listing). -/
theorem c4_retention_sweep :
    (∀ (now : Int) (entries : List DirEntry) (e : DirEntry),
      e ∈ cleanupPersistedFiles now MAX_PERSIST_FILE_AGE_MS entries ↔
        e ∈ entries ∧ (e.statError = true ∨ e.isFile = false ∨
          now - e.mtimeMs ≤ MAX_PERSIST_FILE_AGE_MS ∨ e.unlinkError = true)) ∧
    (∀ (payload : Option JsonValue) (dirEntries : List DirEntry) (sweepNow : Int) (d : JsDate),
      (persistResponse payload (some dirEntries) sweepNow d).2 =
        cleanupPersistedFiles sweepNow MAX_PERSIST_FILE_AGE_MS dirEntries ++
          [newPersistEntry payload d]) := by
  constructor
  · intro now entries e
    rw [cleanup_eq_filter]
    simp only [List.mem_filter, Bool.or_eq_true, Bool.not_eq_true', decide_eq_true_eq]
    tauto
  · intro payload dirEntries sweepNow d
    rfl

/-- Witness for `c4_retention_sweep`: a fresh regular file is retained
by the sweep. -/
theorem c4_witness :
    (⟨"f.json", true, 0, "", false, false⟩ : DirEntry) ∈
      cleanupPersistedFiles 100 MAX_PERSIST_FILE_AGE_MS
        [⟨"f.json", true, 0, "", false, false⟩] :=
  (c4_retention_sweep.1 100 _ _).mpr
    ⟨by decide, Or.inr (Or.inr (Or.inl (by decide)))⟩

/-- Claim C5: persisting `{"a":1}` into a fresh empty directory creates
exactly one file, named `agent-result-<YYYYMMDD>-<HHMMSS>-<epochMillis>.json`
from the date components (second conjunct shows the pattern at a
concrete date), whose pretty-printed contents parse back to `{"a":1}`
(serialize-then-parse round-trips), and a `null`/absent payload is
written as the empty object. -/
theorem c5_persist_roundtrip :
    (∀ (sweepNow : Int) (d : JsDate),
      ∃ e : DirEntry,
        (persistResponse (some (.obj (.cons "a" (.num ⟨1, 1⟩) .nil))) (some []) sweepNow d).2 =
          [e] ∧
        e.name = (persistResponse (some (.obj (.cons "a" (.num ⟨1, 1⟩) .nil)))
          (some []) sweepNow d).1 ∧
        e.name = persistFileName d ∧
        jsonParse e.contents = Except.ok (.obj (.cons "a" (.num ⟨1, 1⟩) .nil))) ∧
    persistFileName ⟨2026, 9, 11, 13, 5, 9, 1760187909123⟩ =
      "agent-result-20261011-130509-1760187909123.json" ∧
    (∀ (sweepNow : Int) (d : JsDate),
      ∃ e : DirEntry, (persistResponse none (some []) sweepNow d).2 = [e] ∧
        e.contents = "\x7b\x7d") ∧
    (∀ (sweepNow : Int) (d : JsDate),
      ∃ e : DirEntry, (persistResponse (some .null) (some []) sweepNow d).2 = [e] ∧
        e.contents = "\x7b\x7d") :=
  ⟨fun _ d => ⟨newPersistEntry (some (.obj (.cons "a" (.num ⟨1, 1⟩) .nil))) d,
      rfl, rfl, rfl, rfl⟩,
   rfl,
   fun _ d => ⟨newPersistEntry none d, rfl, rfl⟩,
   fun _ d => ⟨newPersistEntry (some .null) d, rfl, rfl⟩⟩

/-- Claim C6: each coordinate field resolves as explicit input, else
primary environment variable, else (database/schema only) the secondary
environment fallback, with the result trimmed; a non-empty explicit
value always overrides the environment (first three conjuncts), the
fallback order holds (next five), and whenever a field is empty or
whitespace-only after all fallbacks, normalization fails with the error
message naming that field (last three). -/
theorem c6_coordinate_resolution :
    (∀ (env : ActionEnv) (c : AgentCoordinates), resolveAgentCoordinates env = Except.ok c →
      env.inputAgentDatabase ≠ "" → c.database = jsTrim env.inputAgentDatabase) ∧
    (∀ (env : ActionEnv) (c : AgentCoordinates), resolveAgentCoordinates env = Except.ok c →
      env.inputAgentSchema ≠ "" → c.schema = jsTrim env.inputAgentSchema) ∧
    (∀ (env : ActionEnv) (c : AgentCoordinates), resolveAgentCoordinates env = Except.ok c →
      env.inputAgentName ≠ "" → c.agentName = jsTrim env.inputAgentName) ∧
    (∀ (env : ActionEnv) (c : AgentCoordinates), resolveAgentCoordinates env = Except.ok c →
      env.inputAgentDatabase = "" → env.envAgentDatabase ≠ "" →
      c.database = jsTrim env.envAgentDatabase) ∧
    (∀ (env : ActionEnv) (c : AgentCoordinates), resolveAgentCoordinates env = Except.ok c →
      env.inputAgentDatabase = "" → env.envAgentDatabase = "" →
      c.database = jsTrim env.envSnowflakeDatabase) ∧
    (∀ (env : ActionEnv) (c : AgentCoordinates), resolveAgentCoordinates env = Except.ok c →
      env.inputAgentSchema = "" → env.envAgentSchema ≠ "" →
      c.schema = jsTrim env.envAgentSchema) ∧
    (∀ (env : ActionEnv) (c : AgentCoordinates), resolveAgentCoordinates env = Except.ok c →
      env.inputAgentSchema = "" → env.envAgentSchema = "" →
      c.schema = jsTrim env.envSnowflakeSchema) ∧
    (∀ (env : ActionEnv) (c : AgentCoordinates), resolveAgentCoordinates env = Except.ok c →
      env.inputAgentName = "" → c.agentName = jsTrim env.envAgentName) ∧
    (∀ env : ActionEnv,
      jsTrim (jsOrS env.inputAgentDatabase
        (jsOrS env.envAgentDatabase env.envSnowflakeDatabase)) = "" →
      resolveAgentCoordinates env =
        Except.error "Provide `agent-database` or set AGENT_DATABASE/SNOWFLAKE_DATABASE.") ∧
    (∀ env : ActionEnv,
      jsTrim (jsOrS env.inputAgentDatabase
        (jsOrS env.envAgentDatabase env.envSnowflakeDatabase)) ≠ "" →
      jsTrim (jsOrS env.inputAgentSchema
        (jsOrS env.envAgentSchema env.envSnowflakeSchema)) = "" →
      resolveAgentCoordinates env =
        Except.error "Provide `agent-schema` or set AGENT_SCHEMA/SNOWFLAKE_SCHEMA.") ∧
    (∀ env : ActionEnv,
      jsTrim (jsOrS env.inputAgentDatabase
        (jsOrS env.envAgentDatabase env.envSnowflakeDatabase)) ≠ "" →
      jsTrim (jsOrS env.inputAgentSchema
        (jsOrS env.envAgentSchema env.envSnowflakeSchema)) ≠ "" →
      jsTrim (jsOrS env.inputAgentName env.envAgentName) = "" →
      resolveAgentCoordinates env =
        Except.error "Provide `agent-name` or set AGENT_NAME.") := by
  refine ⟨?_, ?_, ?_, ?_, ?_, ?_, ?_, ?_,
    fun env h => resolveAgentCoordinates_err_database h,
    fun env h1 h2 => resolveAgentCoordinates_err_schema h1 h2,
    fun env h1 h2 h3 => resolveAgentCoordinates_err_name h1 h2 h3⟩
  · intro env c h hin
    rw [(resolveAgentCoordinates_ok h).1]
    simp [jsOrS, hin]
  · intro env c h hin
    rw [(resolveAgentCoordinates_ok h).2.1]
    simp [jsOrS, hin]
  · intro env c h hin
    rw [(resolveAgentCoordinates_ok h).2.2.1]
    simp [jsOrS, hin]
  · intro env c h hin henv
    rw [(resolveAgentCoordinates_ok h).1]
    simp [jsOrS, hin, henv]
  · intro env c h hin henv
    rw [(resolveAgentCoordinates_ok h).1]
    simp [jsOrS, hin, henv]
  · intro env c h hin henv
    rw [(resolveAgentCoordinates_ok h).2.1]
    simp [jsOrS, hin, henv]
  · intro env c h hin henv
    rw [(resolveAgentCoordinates_ok h).2.1]
    simp [jsOrS, hin, henv]
  · intro env c h hin
    rw [(resolveAgentCoordinates_ok h).2.2.1]
    simp [jsOrS, hin]

/-- Witness for `c6_coordinate_resolution`: explicit input `"db "`
overrides a conflicting environment value (first application), the
primary environment fallback is used when the input is absent (second),
and an all-blank database configuration fails with the
database-naming error (third). -/
theorem c6_witness :
    (⟨"db", "sc", "ag"⟩ : AgentCoordinates).database = jsTrim "db " ∧
    (⟨"envdb", "sc", "ag"⟩ : AgentCoordinates).database = jsTrim "envdb" ∧
    resolveAgentCoordinates ⟨" ", "x", "y", "sc", "", "", "ag", ""⟩ =
      Except.error "Provide `agent-database` or set AGENT_DATABASE/SNOWFLAKE_DATABASE." :=
  ⟨c6_coordinate_resolution.1 ⟨"db ", "other", "other2", "sc", "", "", "ag", ""⟩
      ⟨"db", "sc", "ag"⟩ rfl (by decide),
   c6_coordinate_resolution.2.2.2.1 ⟨"", "envdb", "other2", "sc", "", "", "ag", ""⟩
      ⟨"envdb", "sc", "ag"⟩ rfl rfl (by decide),
   c6_coordinate_resolution.2.2.2.2.2.2.2.2.1 ⟨" ", "x", "y", "sc", "", "", "ag", ""⟩ rfl⟩

/-- Claim C7: optional-integer resolution maps absent or blank input to
`undefined`; otherwise it converts the trimmed string with `Number`,
raises an error exactly when the conversion is not-a-number, and
otherwise returns the value floored toward negative infinity — in
particular `"3.9"` normalizes to `3` and `"abc"` fails. -/
theorem c7_optional_integer :
    parseOptionalInteger none = Except.ok none ∧
    (∀ r : String, jsTrim r = "" → parseOptionalInteger (some r) = Except.ok none) ∧
    (∀ r : String, jsTrim r ≠ "" → jsStringToNumber (jsTrim r) = none →
      parseOptionalInteger (some r) =
        Except.error ("Expected integer value, received: " ++ r)) ∧
    (∀ (r : String) (q : JsNumber), jsTrim r ≠ "" → jsStringToNumber (jsTrim r) = some q →
      parseOptionalInteger (some r) = Except.ok (some q.floor)) ∧
    parseOptionalInteger (some "3.9") = Except.ok (some 3) ∧
    parseOptionalInteger (some "abc") =
      Except.error "Expected integer value, received: abc" := by
  refine ⟨rfl, ?_, ?_, ?_, rfl, rfl⟩
  · intro r h
    by_cases hr : r = ""
    · subst hr; rfl
    · simp [parseOptionalInteger, hr, h]
  · intro r ht hn
    have hr : r ≠ "" := ne_empty_of_jsTrim ht
    simp [parseOptionalInteger, hr, ht, hn]
  · intro r q ht hn
    have hr : r ≠ "" := ne_empty_of_jsTrim ht
    simp [parseOptionalInteger, hr, ht, hn]

/-- Witness for `c7_optional_integer`: its conditional conjuncts applied
to the blank string `" "`, the non-numeric string `"abc"`, and the
numeral `"3.9"` (whose exact value `39/10` floors to `3`). -/
theorem c7_witness :
    parseOptionalInteger (some " ") = Except.ok none ∧
    parseOptionalInteger (some "abc") =
      Except.error ("Expected integer value, received: " ++ "abc") ∧
    parseOptionalInteger (some "3.9") = Except.ok (some (JsNumber.floor ⟨39, 10⟩)) :=
  ⟨c7_optional_integer.2.1 " " rfl,
   c7_optional_integer.2.2.1 "abc" (by decide) rfl,
   c7_optional_integer.2.2.2.1 "3.9" ⟨39, 10⟩ (by decide) rfl⟩

/-- Claim C10: `parseMessages` performs no shape validation on array
elements — every string that parses as a JSON array (such strings are
necessarily non-blank, the two side conditions) is returned unchanged as
the message list, even when its elements are not objects or lack
role/content fields (second conjunct: a number, a string and an empty
object are all accepted verbatim). -/
theorem c10_no_shape_validation :
    (∀ (s : String) (fb : Option String) (ms : JsonList),
      jsonParse s = Except.ok (JsonValue.arr ms) → s ≠ "" → 0 < (jsTrim s).length →
      parseMessages (some s) fb = Except.ok ms) ∧
    parseMessages (some "[1, \"x\", \x7b\x7d]") none =
      Except.ok (.cons (.num ⟨1, 1⟩) (.cons (.str "x") (.cons (.obj .nil) .nil))) := by
  refine ⟨?_, rfl⟩
  intro s fb ms hp hne hlen
  unfold parseMessages
  dsimp only
  rw [if_pos ⟨hne, hlen⟩, hp]

/-- Witness for `c10_no_shape_validation`: its universal part applied to
the raw string `"[null]"`, whose single element is not an object at all. -/
theorem c10_witness :
    parseMessages (some "[null]") none = Except.ok (.cons .null .nil) :=
  c10_no_shape_validation.1 "[null]" none (.cons .null .nil) rfl (by decide) (by decide)
